import Mathlib

/-!
Verification of the memory-and-response pipeline of the persona repository
(short-term memory, long-term memory admission/retrieval, context assembler,
token compressor, and the PersonaBrain decision engine).

The Python source is shallowly embedded: pure functions become Lean
functions, stateful methods become explicit state-passing functions, and
external collaborators (the vector-store query, the LLM completion call,
the `difflib.SequenceMatcher.ratio` similarity value, the RNG draw of
`random.random()`, the token-compression SDK call, and the wall clock)
are passed in as explicit parameters.  Floating-point times, distances and
rates are modelled with `Rat`.
-/

namespace PersonaCore

/-! ## Short-term memory (src/pickle-ai/src/persona/brain/memory/short_term.py)

`MemoryEntry` mirrors the dataclass; `metadata` is an open key-value bag that
no modelled operation inspects, so it is omitted from the embedding. -/

structure MemoryEntry where
  role : String
  content : String
  timestamp : ℚ
  source : Option String
  user : Option String
deriving DecidableEq, Repr

/-- Model of `ShortTermMemory`: a `deque(maxlen=max_size)`, oldest entry
first in the list. -/
structure ShortTermMemory where
  maxSize : Nat
  memory : List MemoryEntry
deriving DecidableEq, Repr

/-- Model of `ShortTermMemory.add`: builds the entry (timestamp is the
caller-supplied clock value) and appends it to the deque; `deque` with
`maxlen` silently discards from the left when full, which for a list is
dropping down to the last `maxSize` elements. -/
def ShortTermMemory.add (stm : ShortTermMemory) (role content : String) (now : ℚ)
    (source : Option String) (user : Option String) : MemoryEntry × ShortTermMemory :=
  let e : MemoryEntry := ⟨role, content, now, source, user⟩
  let m := stm.memory ++ [e]
  ⟨e, ⟨stm.maxSize, m.drop (m.length - stm.maxSize)⟩⟩

/-- Model of `ShortTermMemory.get_recent`: `list(self._memory)[-n:]` for
`n` an int, or the whole list when `n is None`.  In Python `[-0:]` is the
whole list, hence the `k = 0` case. -/
def ShortTermMemory.getRecent (stm : ShortTermMemory) (n : Option Nat) : List MemoryEntry :=
  match n with
  | none => stm.memory
  | some k => if k = 0 then stm.memory else stm.memory.drop (stm.memory.length - k)

/-- Arguments of one `ShortTermMemory.add` call. -/
structure AddCall where
  role : String
  content : String
  now : ℚ
  source : Option String
  user : Option String
deriving DecidableEq, Repr

/-- The entry an `add` call creates. -/
def AddCall.toEntry (c : AddCall) : MemoryEntry :=
  ⟨c.role, c.content, c.now, c.source, c.user⟩

/-- Replay a sequence of `add` calls against a short-term memory. -/
def applyAdds (stm : ShortTermMemory) (calls : List AddCall) : ShortTermMemory :=
  calls.foldl (fun s c => (s.add c.role c.content c.now c.source c.user).2) stm

theorem add_memory_eq (stm : ShortTermMemory) (c : AddCall) :
    ((stm.add c.role c.content c.now c.source c.user).2).memory =
      (stm.memory ++ [c.toEntry]).drop ((stm.memory.length + 1) - stm.maxSize) := by
  simp [ShortTermMemory.add, AddCall.toEntry]

theorem add_maxSize_eq (stm : ShortTermMemory) (c : AddCall) :
    ((stm.add c.role c.content c.now c.source c.user).2).maxSize = stm.maxSize := rfl

/-- After replaying a sequence of `add` calls, the retained window is the
suffix of the whole insertion history that fits in the capacity. -/
theorem applyAdds_memory :
    ∀ (calls : List AddCall) (stm : ShortTermMemory),
      stm.memory.length ≤ stm.maxSize →
      (applyAdds stm calls).memory =
        (stm.memory ++ calls.map AddCall.toEntry).drop
          ((stm.memory.length + calls.length) - stm.maxSize) := by
  intro calls
  induction calls with
  | nil =>
    intro stm h
    simp [applyAdds, Nat.sub_eq_zero_of_le h]
  | cons c cs ih =>
    intro stm h
    have hstep : applyAdds stm (c :: cs) =
        applyAdds ((stm.add c.role c.content c.now c.source c.user).2) cs := rfl
    have hlen : ((stm.add c.role c.content c.now c.source c.user).2).memory.length =
        stm.memory.length + 1 - (stm.memory.length + 1 - stm.maxSize) := by
      rw [add_memory_eq]; simp
    have hle : ((stm.add c.role c.content c.now c.source c.user).2).memory.length ≤
        ((stm.add c.role c.content c.now c.source c.user).2).maxSize := by
      rw [hlen, add_maxSize_eq]; omega
    rw [hstep, ih _ hle, add_memory_eq, add_maxSize_eq]
    simp only [List.length_drop, List.length_append, List.length_cons, List.length_nil]
    have hsplit :
        List.drop (stm.memory.length + 1 - stm.maxSize) (stm.memory ++ [c.toEntry]) ++
            cs.map AddCall.toEntry =
          ((stm.memory ++ [c.toEntry]) ++ cs.map AddCall.toEntry).drop
            (stm.memory.length + 1 - stm.maxSize) :=
      (List.drop_append_of_le_length (by simp)).symm
    rw [hsplit, List.drop_drop, List.append_assoc]
    congr 1
    omega

theorem applyAdds_from_empty (K : Nat) (calls : List AddCall) :
    (applyAdds ⟨K, []⟩ calls).memory =
      (calls.map AddCall.toEntry).drop (calls.length - K) := by
  have h := applyAdds_memory calls ⟨K, []⟩ (by simp)
  simpa using h

/-- An `add` call used in scenario A of the spec (role `user`, no source). -/
def demoCall (s : String) (t : ℚ) : AddCall :=
  ⟨"user", s, t, none, none⟩

/-- C1: for every sequence of `ShortTermMemory.add` calls on a memory of
capacity `K`, after every call `len(STM) ≤ K` (clause 1: a single `add`
always lands at or under capacity, so the bound holds after every call of
the sequence); `get_recent()` returns the retained entries in insertion
order, namely the capacity-sized suffix of the insertion history
(clause 2); an `add` on a full memory evicts exactly the oldest entry and
appends the new one, raising no error (clause 3, the operation is total);
and with capacity 3, adding "a","b","c","d" leaves `get_recent()` equal to
`["b","c","d"]` (clause 4). -/
theorem C1_stm_window (K : Nat) (calls : List AddCall) :
    (∀ (stm : ShortTermMemory) (c : AddCall),
        ((stm.add c.role c.content c.now c.source c.user).2).memory.length ≤ stm.maxSize)
    ∧ (applyAdds ⟨K, []⟩ calls).getRecent none =
        (calls.map AddCall.toEntry).drop (calls.length - K)
    ∧ (∀ (stm : ShortTermMemory) (c : AddCall),
        stm.memory.length = stm.maxSize → 0 < stm.maxSize →
        ((stm.add c.role c.content c.now c.source c.user).2).memory =
          stm.memory.drop 1 ++ [c.toEntry])
    ∧ ((applyAdds ⟨3, []⟩
          [demoCall "a" 0, demoCall "b" 1, demoCall "c" 2, demoCall "d" 3]).getRecent
        none).map (fun e => e.content) = ["b", "c", "d"] := by
  refine ⟨?_, ?_, ?_, ?_⟩
  · intro stm c
    simp [ShortTermMemory.add]
    omega
  · show (applyAdds ⟨K, []⟩ calls).memory = _
    exact applyAdds_from_empty K calls
  · intro stm c hfull hpos
    rw [add_memory_eq]
    have h1 : stm.memory.length + 1 - stm.maxSize = 1 := by omega
    rw [h1, List.drop_append_of_le_length (by omega)]
  · rfl

/-- Witness for C1: the eviction clause applied to a concrete full memory of
capacity 2 holding "a","b"; adding "c" drops "a" and keeps insertion order. -/
theorem C1_stm_window_witness :
    ((ShortTermMemory.add
        ⟨2, [⟨"user", "a", 0, none, none⟩, ⟨"user", "b", 1, none, none⟩]⟩
        "user" "c" 2 none none).2).memory =
      [⟨"user", "b", 1, none, none⟩, ⟨"user", "c", 2, none, none⟩] := by
  have h := (C1_stm_window 0 []).2.2.1
    ⟨2, [⟨"user", "a", 0, none, none⟩, ⟨"user", "b", 1, none, none⟩]⟩
    ⟨"user", "c", 2, none, none⟩ rfl (by decide)
  simpa [AddCall.toEntry] using h

/-! ## Long-term memory (src/ai-persona/src/persona/brain/memory/long_term.py)

The embedding model and the ChromaDB collection are external collaborators;
the collection is modelled by its stored-record count plus its `query`
behaviour, a function from the query text and the requested `n_results` to
the ranked hits (document, stored metadata, cosine distance). -/

/-- One hit returned by the vector-store `query` call: a document plus the
metadata written by `add_memory` (`timestamp`, `source`, `user`) and its
cosine distance to the query. -/
structure QueryHit where
  content : String
  timestamp : String
  sourceMeta : String
  userMeta : String
  distance : ℚ
deriving DecidableEq, Repr

/-- Model of the `LTMResult` dataclass. -/
structure LTMResult where
  content : String
  timestamp : String
  source : Option String
  user : Option String
  relevance_score : ℚ
deriving DecidableEq, Repr

/-- Conversion of one hit into an `LTMResult` as done in the loop body of
`retrieve`: relevance is `1 - distance`; `metadata.get("user") or None`
turns the empty string into `None`. -/
def QueryHit.toResult (h : QueryHit) : LTMResult :=
  ⟨h.content, h.timestamp, some h.sourceMeta,
    if h.userMeta = "" then none else some h.userMeta, 1 - h.distance⟩

/-- The loop of `retrieve`: convert each distance to a relevance and skip
(`continue`) hits below `min_relevance`, keeping the return order. -/
def processHits (hits : List QueryHit) (minRelevance : ℚ) : List LTMResult :=
  hits.filterMap (fun h =>
    if 1 - h.distance < minRelevance then none else some h.toResult)

/-- Insert a result into a descending-by-relevance list, after any earlier
result of equal relevance: the insertion step of a stable descending sort,
which is extensionally the behaviour of the stable Python
`list.sort(key=relevance, reverse=True)`. -/
def insertDesc (x : LTMResult) : List LTMResult → List LTMResult
  | [] => [x]
  | y :: ys =>
    if y.relevance_score ≤ x.relevance_score then x :: y :: ys
    else y :: insertDesc x ys

/-- Stable descending sort by `relevance_score` (model of
`ltm_results.sort(key=lambda x: x.relevance_score, reverse=True)`). -/
def sortByRelevanceDesc : List LTMResult → List LTMResult
  | [] => []
  | x :: xs => insertDesc x (sortByRelevanceDesc xs)

/-- The vector-store collaborator behind a `LongTermMemory`: `count` is
`self._collection.count()` and `query q k` the ranked hits the collection
returns for the embedded query `q` with `n_results=k`. -/
structure LTMStore where
  count : Nat
  query : String → Nat → List QueryHit

/-- Model of `LongTermMemory.retrieve`: empty store short-circuits to `[]`;
otherwise the search is capped at `min(n_results, count)`, each hit is
converted and filtered by `min_relevance`, and the survivors are stably
sorted by descending relevance. -/
def LTMStore.retrieve (st : LTMStore) (q : String) (nResults : Nat)
    (minRelevance : ℚ) : List LTMResult :=
  if st.count = 0 then []
  else sortByRelevanceDesc (processHits (st.query q (min nResults st.count)) minRelevance)

theorem insertDesc_perm (x : LTMResult) (l : List LTMResult) :
    List.Perm (insertDesc x l) (x :: l) := by
  induction l with
  | nil => simp [insertDesc]
  | cons y ys ih =>
    by_cases h : y.relevance_score ≤ x.relevance_score
    · simp [insertDesc, h]
    · simp only [insertDesc, if_neg h]
      exact (ih.cons y).trans (List.Perm.swap x y ys)

theorem sortByRelevanceDesc_perm (l : List LTMResult) :
    List.Perm (sortByRelevanceDesc l) l := by
  induction l with
  | nil => simp [sortByRelevanceDesc]
  | cons x xs ih =>
    exact (insertDesc_perm x (sortByRelevanceDesc xs)).trans (ih.cons x)

theorem insertDesc_pairwise (x : LTMResult) (l : List LTMResult)
    (hl : l.Pairwise (fun a b => b.relevance_score ≤ a.relevance_score)) :
    (insertDesc x l).Pairwise (fun a b => b.relevance_score ≤ a.relevance_score) := by
  induction l with
  | nil => simp [insertDesc]
  | cons y ys ih =>
    rcases List.pairwise_cons.1 hl with ⟨hy, hys⟩
    by_cases h : y.relevance_score ≤ x.relevance_score
    · simp only [insertDesc, if_pos h]
      refine List.pairwise_cons.2 ⟨?_, hl⟩
      intro z hz
      rcases List.mem_cons.1 hz with rfl | hz
      · exact h
      · exact le_trans (hy z hz) h
    · simp only [insertDesc, if_neg h]
      refine List.pairwise_cons.2 ⟨?_, ih hys⟩
      intro z hz
      have hz' : z ∈ x :: ys := (insertDesc_perm x ys).mem_iff.1 hz
      rcases List.mem_cons.1 hz' with rfl | hz'
      · exact le_of_lt (lt_of_not_le h)
      · exact hy z hz'

theorem sortByRelevanceDesc_pairwise (l : List LTMResult) :
    (sortByRelevanceDesc l).Pairwise (fun a b => b.relevance_score ≤ a.relevance_score) := by
  induction l with
  | nil => simp [sortByRelevanceDesc]
  | cons x xs ih => exact insertDesc_pairwise x (sortByRelevanceDesc xs) ih

/-- Results of a fixed relevance, in order: used to state sort stability. -/
def filterRel (r : ℚ) (l : List LTMResult) : List LTMResult :=
  l.filter (fun a => decide (a.relevance_score = r))

theorem filterRel_insertDesc_eq (x : LTMResult) (l : List LTMResult) (r : ℚ)
    (hx : x.relevance_score = r) :
    filterRel r (insertDesc x l) = x :: filterRel r l := by
  induction l with
  | nil => simp [insertDesc, filterRel, hx]
  | cons y ys ih =>
    simp only [filterRel] at ih ⊢
    by_cases h : y.relevance_score ≤ x.relevance_score
    · rw [show insertDesc x (y :: ys) = x :: y :: ys from by simp [insertDesc, h]]
      simp [List.filter_cons, hx]
    · rw [show insertDesc x (y :: ys) = y :: insertDesc x ys from by simp [insertDesc, h]]
      have hy : ¬ y.relevance_score = r := fun hcon => h (le_of_eq (hcon.trans hx.symm))
      simp [List.filter_cons, hy, ih]

theorem filterRel_insertDesc_ne (x : LTMResult) (l : List LTMResult) (r : ℚ)
    (hx : ¬ x.relevance_score = r) :
    filterRel r (insertDesc x l) = filterRel r l := by
  induction l with
  | nil => simp [insertDesc, filterRel, hx]
  | cons y ys ih =>
    simp only [filterRel] at ih ⊢
    by_cases h : y.relevance_score ≤ x.relevance_score
    · rw [show insertDesc x (y :: ys) = x :: y :: ys from by simp [insertDesc, h]]
      simp [List.filter_cons, hx]
    · rw [show insertDesc x (y :: ys) = y :: insertDesc x ys from by simp [insertDesc, h]]
      simp [List.filter_cons, ih]

/-- Stability of the descending sort: results of any one relevance value
appear in the same order as in the unsorted input. -/
theorem filterRel_sortByRelevanceDesc (l : List LTMResult) (r : ℚ) :
    filterRel r (sortByRelevanceDesc l) = filterRel r l := by
  induction l with
  | nil => simp [sortByRelevanceDesc]
  | cons x xs ih =>
    by_cases hx : x.relevance_score = r
    · rw [show sortByRelevanceDesc (x :: xs) = insertDesc x (sortByRelevanceDesc xs) from rfl,
        filterRel_insertDesc_eq x _ r hx, ih]
      simp [filterRel, List.filter_cons, hx]
    · rw [show sortByRelevanceDesc (x :: xs) = insertDesc x (sortByRelevanceDesc xs) from rfl,
        filterRel_insertDesc_ne x _ r hx, ih]
      simp [filterRel, List.filter_cons, hx]

theorem mem_processHits_relevance {hits : List QueryHit} {mr : ℚ} {r : LTMResult}
    (h : r ∈ processHits hits mr) : mr ≤ r.relevance_score := by
  rcases List.mem_filterMap.1 h with ⟨q, _, hq⟩
  by_cases hd : 1 - q.distance < mr
  · simp [hd] at hq
  · simp only [if_neg hd, Option.some.injEq] at hq
    subst hq
    exact le_of_not_lt (by simpa [QueryHit.toResult] using hd)

/-- C2: `retrieve` on an empty store returns `[]` for every query (clause 1,
covering `retrieve("anything", 5, 0.3)`); every returned result has
relevance `1 - distance ≥ min_relevance` (clause 2); results are sorted in
descending relevance (clause 3); on a non-empty store the result set is
exactly the converted hits that pass the relevance filter (clause 4, a
permutation) with ties kept in the original return order (clause 5,
stability); and the outcome depends on the vector store only through the
hits of a search capped at `min(n_results, count)` (clause 6). -/
theorem C2_ltm_retrieve (st : LTMStore) (q : String) (n : Nat) (mr : ℚ) :
    (st.count = 0 → st.retrieve q n mr = [])
    ∧ (∀ r ∈ st.retrieve q n mr, mr ≤ r.relevance_score)
    ∧ (st.retrieve q n mr).Pairwise (fun a b => b.relevance_score ≤ a.relevance_score)
    ∧ (st.count ≠ 0 →
        List.Perm (st.retrieve q n mr) (processHits (st.query q (min n st.count)) mr))
    ∧ (st.count ≠ 0 → ∀ rho : ℚ,
        filterRel rho (st.retrieve q n mr) =
          filterRel rho (processHits (st.query q (min n st.count)) mr))
    ∧ (∀ st' : LTMStore, st.count = st'.count →
        st.query q (min n st.count) = st'.query q (min n st'.count) →
        st.retrieve q n mr = st'.retrieve q n mr) := by
  refine ⟨?_, ?_, ?_, ?_, ?_, ?_⟩
  · intro h
    simp [LTMStore.retrieve, h]
  · intro r hr
    by_cases h0 : st.count = 0
    · simp [LTMStore.retrieve, h0] at hr
    · rw [LTMStore.retrieve, if_neg h0] at hr
      exact mem_processHits_relevance ((sortByRelevanceDesc_perm _).mem_iff.1 hr)
  · by_cases h0 : st.count = 0
    · simp [LTMStore.retrieve, h0]
    · rw [LTMStore.retrieve, if_neg h0]
      exact sortByRelevanceDesc_pairwise _
  · intro h0
    rw [LTMStore.retrieve, if_neg h0]
    exact sortByRelevanceDesc_perm _
  · intro h0 rho
    rw [LTMStore.retrieve, if_neg h0]
    exact filterRel_sortByRelevanceDesc _ rho
  · intro st' hc hq
    rw [LTMStore.retrieve, LTMStore.retrieve, hq, hc]

/-- Witness for C2: end-to-end scenario B — an empty store answers
`retrieve("anything", 5, 0.3)` with the empty list. -/
theorem C2_ltm_retrieve_witness :
    LTMStore.retrieve ⟨0, fun _ _ => []⟩ "anything" 5 (3/10) = [] :=
  (C2_ltm_retrieve ⟨0, fun _ _ => []⟩ "anything" 5 (3/10)).1 rfl

/-! ## LTM admission policy (`should_save_to_ltm` and `ENTITY_PATTERNS`)

The Python call `re.search(pattern, content, re.IGNORECASE)` over the seven
`ENTITY_PATTERNS` regexes is embedded by direct case analysis on the
word-character tokens of the content (a `\b...\b` group of plain words
matches exactly when some maximal word-character run equals one of the
words).  String helpers are written over `List Char` (ASCII semantics). -/

/-- Python regex `\w` (ASCII): letters, digits, underscore. -/
def isWordChar (c : Char) : Bool :=
  c.isAlpha || c.isDigit || c = '_'

/-- Split a character list at separators, keeping the pieces in order. -/
def splitCharsAux (p : Char → Bool) : List Char → List Char → List (List Char)
  | acc, [] => [acc.reverse]
  | acc, c :: rest =>
    if p c then acc.reverse :: splitCharsAux p [] rest
    else splitCharsAux p (c :: acc) rest

/-- Maximal nonempty runs of characters not satisfying `p`. -/
def splitDrop (p : Char → Bool) (s : String) : List String :=
  ((splitCharsAux p [] s.data).map (fun l => String.mk l)).filter (fun t => t ≠ "")

/-- The maximal word-character tokens of a content string (the `\b`-delimited
words the patterns can match). -/
def wordTokens (content : String) : List String :=
  splitDrop (fun c => !isWordChar c) content

/-- ASCII lower-casing (model of `str.lower` / `re.IGNORECASE`). -/
def toLowerStr (s : String) : String :=
  String.mk (s.data.map Char.toLower)

/-- Python `content.split()`: split on whitespace, discarding empties. -/
def splitWs (content : String) : List String :=
  splitDrop Char.isWhitespace content

/-- A word-set pattern `\b(w1|w2|...)\b` searched case-insensitively: some
token, lowercased, is one of the words. -/
def matchesWordSet (ws : List String) (content : String) : Bool :=
  (wordTokens content).any (fun t => ws.contains (toLowerStr t))

/-- Pattern 1 of `ENTITY_PATTERNS` (activities). -/
def activityWords : List String :=
  ["play", "played", "playing", "watch", "watched", "watching",
   "stream", "streamed", "streaming"]

/-- Pattern 2 (preferences). -/
def preferenceWords : List String :=
  ["love", "hate", "like", "prefer", "favorite"]

/-- Pattern 3 (identity). -/
def identityWords : List String :=
  ["name", "named", "call", "called"]

/-- Pattern 5 (habits). -/
def habitWords : List String :=
  ["always", "never", "usually", "sometimes"]

/-- Pattern 6 (events). -/
def eventWords : List String :=
  ["birthday", "anniversary", "holiday"]

/-- Strip an expected (already lowercase) keyword from the front of a
lowercased character list. -/
def dropKeyword : List Char → List Char → Option (List Char)
  | [], rest => some rest
  | p :: ps, c :: rest => if c = p then dropKeyword ps rest else none
  | _ :: _, [] => none

/-- After at least the current whitespace character run, a word character
follows (`\s+\w` continuation, the `\w+\b` tail being any maximal run). -/
def afterWsWordChar : List Char → Bool
  | [] => false
  | c :: rest => if c.isWhitespace then afterWsWordChar rest else isWordChar c

/-- At least one whitespace character and then a word character (`\s+\w+\b`). -/
def wsThenWordChar : List Char → Bool
  | [] => false
  | c :: rest => c.isWhitespace && afterWsWordChar rest

/-- No word character directly before the match position (`\b`). -/
def boundaryBefore : Option Char → Bool
  | none => true
  | some p => !isWordChar p

/-- One candidate position for `next\s+\w+` / `last\s+\w+`. -/
def nextLastHere (cs : List Char) : Bool :=
  (match dropKeyword ['n', 'e', 'x', 't'] cs with
   | some rest => wsThenWordChar rest
   | none => false) ||
  (match dropKeyword ['l', 'a', 's', 't'] cs with
   | some rest => wsThenWordChar rest
   | none => false)

/-- Scan of the lowered content for `\bnext\s+\w+\b` or `\blast\s+\w+\b`. -/
def nextLastScan : Option Char → List Char → Bool
  | _, [] => false
  | prev, c :: rest =>
    (boundaryBefore prev && nextLastHere (c :: rest)) || nextLastScan (some c) rest

/-- Pattern 4 (time references): `tomorrow`, `yesterday`, or `next`/`last`
followed by whitespace and a word. -/
def timeRefMatch (content : String) : Bool :=
  (wordTokens content).any
    (fun t => toLowerStr t = "tomorrow" || toLowerStr t = "yesterday") ||
  nextLastScan none (toLowerStr content).data

/-- Pattern 7 as the code executes it:
`\b[A-Z][a-z]+(?:\s+[A-Z][a-z]+)*\b` searched with `re.IGNORECASE`, under
which `[A-Z]` and `[a-z]` both match any ASCII letter.  The pattern
therefore matches exactly when some maximal word token consists purely of
letters and has length at least 2 (the optional multi-word group adds no
further strings to the match set). -/
def properNounMatchCI (content : String) : Bool :=
  (wordTokens content).any (fun t => 2 ≤ t.length && t.data.all Char.isAlpha)

/-- Model of `LongTermMemory.should_save_to_ltm`: word count at least
`MIN_WORDS_FOR_LTM = 5`, or some `ENTITY_PATTERNS` regex matches
(case-insensitively), in source order. -/
def should_save_to_ltm (content : String) : Bool :=
  if 5 ≤ (splitWs content).length then true
  else
    matchesWordSet activityWords content ||
    matchesWordSet preferenceWords content ||
    matchesWordSet identityWords content ||
    timeRefMatch content ||
    matchesWordSet habitWords content ||
    matchesWordSet eventWords content ||
    properNounMatchCI content

/-- A word of the shape `[A-Z][a-z]+`: a capitalized word, as the
proper-noun pattern reads without `re.IGNORECASE`. -/
def capWord (t : String) : Bool :=
  match t.data with
  | [] => false
  | c :: rest => c.isUpper && !rest.isEmpty && rest.all Char.isLower

/-- Two consecutive capitalized words among the whitespace-separated words. -/
def hasAdjacentCapPair : List String → Bool
  | [] => false
  | [_] => false
  | a :: b :: rest => (capWord a && capWord b) || hasAdjacentCapPair (b :: rest)

/-- Modelled from the spec: the admission predicate as §4.2 and claim C3
describe it, where the seventh pattern class is read as written —
"capitalized multi-word proper-noun-like spans", i.e. at least two adjacent
Capitalized words — matching the source comment `Proper nouns (names,
places)`; the other six classes and the word-count rule are as in the code. -/
def shouldSaveSpecIntent (content : String) : Bool :=
  if 5 ≤ (splitWs content).length then true
  else
    matchesWordSet activityWords content ||
    matchesWordSet preferenceWords content ||
    matchesWordSet identityWords content ||
    timeRefMatch content ||
    matchesWordSet habitWords content ||
    matchesWordSet eventWords content ||
    hasAdjacentCapPair (splitWs content)

/-- C3 (code bug): the claim says a short lowercase line matching none of
the semantic pattern classes is not saved, but `should_save_to_ltm "hi"`
is `true` in the code — under `re.IGNORECASE` the proper-noun pattern
`\b[A-Z][a-z]+(?:\s+[A-Z][a-z]+)*\b` matches any word of two or more
letters, contradicting the `Proper nouns` comment on the pattern; the
predicate as the claim (and the source comment) states it rejects "hi". -/
theorem C3_should_save_bug :
    should_save_to_ltm "hi" = true ∧ shouldSaveSpecIntent "hi" = false := by
  constructor
  · decide
  · decide

/-! ## Context assembler and token compressor
(src/pickle-ai/src/persona/brain/assembler.py, compressor.py)

`TokenCompressor.compress` wraps an external SDK call whose outcome is a
parameter; every raised SDK error is caught and answered with the original
text, so the model is total. -/

/-- One LLM message (`{"role": ..., "content": ...}`). -/
structure Message where
  role : String
  content : String
deriving DecidableEq, Repr

/-- Python `str.strip()`: drop leading and trailing whitespace. -/
def stripStr (s : String) : String :=
  String.mk (((s.data.dropWhile Char.isWhitespace).reverse.dropWhile
    Char.isWhitespace).reverse)

/-- Model of `CompressResult`; the token-count and timing metrics carried by
the dataclass are not read by any modelled code and are omitted. -/
structure CompressResult where
  text : String
  wasCompressed : Bool
deriving DecidableEq, Repr

/-- Model of the `TokenCompressor` object: `enabled` and whether
`self._client` is set. -/
structure TokenCompressor where
  enabled : Bool
  hasClient : Bool
deriving DecidableEq, Repr

/-- Model of `TokenCompressor.compress`: disabled, client-less or blank
input short-circuits to the original text; otherwise the SDK call either
returns compressed text or raises, and every exception arm falls through to
returning the original text with `was_compressed=False`. -/
def TokenCompressor.compress (c : TokenCompressor) (text : String)
    (outcome : Except Unit String) : CompressResult :=
  if !c.enabled || !c.hasClient || stripStr text = "" then ⟨text, false⟩
  else
    match outcome with
    | .ok out => ⟨out, true⟩
    | .error _ => ⟨text, false⟩

/-- Python `"\n".join(...)`. -/
def joinLines : List String → String
  | [] => ""
  | [x] => x
  | x :: y :: rest => x ++ "\n" ++ joinLines (y :: rest)

/-- Model of `LTMResult.__str__`. -/
def LTMResult.toStr (r : LTMResult) : String :=
  let timeStr := if r.timestamp = "" then "unknown" else String.mk (r.timestamp.data.take 10)
  match r.user with
  | some u =>
    if u = "" then "[" ++ timeStr ++ "] " ++ r.content
    else "[" ++ timeStr ++ "] " ++ u ++ ": " ++ r.content
  | none => "[" ++ timeStr ++ "] " ++ r.content

/-- Model of `LongTermMemory.get_formatted_context`: empty result list gives
the empty string, otherwise a header line followed by one bullet per result. -/
def LTMStore.getFormattedContext (st : LTMStore) (q : String) (n : Nat)
    (mr : ℚ) : String :=
  let results := st.retrieve q n mr
  if results = [] then ""
  else joinLines ("Relevant past context:" :: results.map (fun r => "- " ++ r.toStr))

/-- Model of `ContextAssembler` (its two memories, optional compressor and
configuration). -/
structure ContextAssembler where
  stm : ShortTermMemory
  ltm : LTMStore
  compressor : Option TokenCompressor
  stmMessageCount : Nat
  ltmResultCount : Nat
  ltmMinRelevance : ℚ

/-- The source-tag rendering of one STM entry in `build_messages`. -/
def renderEntry (e : MemoryEntry) : String :=
  if e.role = "assistant" then "[You previously said]: " ++ e.content
  else if e.source = some "vision" then "[What you see on stream]: " ++ e.content
  else if e.source = some "speech" then "[Streamer said]: " ++ e.content
  else if e.source = some "chat" then
    "[Chat from " ++
      (match e.user with
       | some u => if u = "" then "viewer" else u
       | none => "viewer") ++ "]: " ++ e.content
  else "[Input]: " ++ e.content

/-- The two trailing lines `build_messages` appends after the rendered STM
block (the first carries a leading newline from the source f-string). -/
def currentLines (cur : String) : List String :=
  ["\n[CURRENT CHAT MESSAGE TO VOICE]: " ++ cur,
   "Now rephrase this chat message as speech directed at the streamer (convert he/she to you):"]

/-- Model of `AssembledContext.get_full_system_prompt` as used by
`build_messages`: the LTM context, when non-empty, is appended after the
system prompt with a blank line between. -/
def ContextAssembler.fullSystemPrompt (asm : ContextAssembler) (cur prompt : String) : String :=
  let ctx := asm.ltm.getFormattedContext cur asm.ltmResultCount asm.ltmMinRelevance
  if ctx = "" then prompt else prompt ++ "\n\n" ++ ctx

/-- Model of `ContextAssembler.build_messages`: assemble the full system
prompt (with LTM context), optionally compress it, render the recent STM
entries with source tags, append the current-input block, and return one
`system` and one `user` message. -/
def ContextAssembler.buildMessages (asm : ContextAssembler) (cur prompt : String)
    (compressFlag : Bool) (outcome : Except Unit String) : List Message :=
  let full := asm.fullSystemPrompt cur prompt
  let finalPrompt :=
    match asm.compressor, compressFlag with
    | some c, true =>
      let r := c.compress full outcome
      if r.wasCompressed then r.text else full
    | _, _ => full
  let recent := asm.stm.getRecent (some asm.stmMessageCount)
  let userContext := joinLines (recent.map renderEntry ++ currentLines cur)
  [⟨"system", finalPrompt⟩, ⟨"user", userContext⟩]

/-- A concrete assembler with no compressor, an empty STM and one stored
LTM document "C" at distance 0 (relevance 1). -/
def asmDemo : ContextAssembler :=
  ⟨⟨15, []⟩, ⟨1, fun _ _ => [⟨"C", "", "unknown", "", 0⟩]⟩, none, 10, 3, 4/10⟩

/-- Counterexample to C8 as stated: with system prompt "SYS" and a
non-empty LTM context, the produced system message is the prompt followed
by the context — the context is not a prefix of the system message, so it
is appended, not prepended. -/
theorem C8_counterexample :
    ((asmDemo.buildMessages "q" "SYS" true (.error ())).map Message.content).head? =
      some ("SYS" ++ "\n\n" ++ "Relevant past context:\n- [unknown] C")
    ∧ List.isPrefixOf ("Relevant past context:\n- [unknown] C").data
        ("SYS" ++ "\n\n" ++ "Relevant past context:\n- [unknown] C").data = false := by
  have hlt : ¬ ((1:ℚ) < 4/10) := by norm_num
  have hret : asmDemo.ltm.retrieve "q" asmDemo.ltmResultCount asmDemo.ltmMinRelevance =
      [⟨"C", "", some "unknown", none, 1⟩] := by
    simp [asmDemo, LTMStore.retrieve, processHits, QueryHit.toResult,
      sortByRelevanceDesc, insertDesc, List.filterMap_cons, hlt]
  constructor
  · simp only [ContextAssembler.buildMessages, ContextAssembler.fullSystemPrompt,
      LTMStore.getFormattedContext, hret]
    decide
  · decide

/-- C4/C8 amended-helper: a compressor failure (or absence) leaves the
compress step returning the original text unmarked. -/
theorem compress_not_compressed (c : TokenCompressor) (text : String)
    (outcome : Except Unit String) (h : c.enabled = false ∨ outcome = .error ()) :
    c.compress text outcome = ⟨text, false⟩ := by
  rcases h with h | h
  · simp [TokenCompressor.compress, h]
  · by_cases hg : !c.enabled || !c.hasClient || stripStr text = ""
    · simp [TokenCompressor.compress, hg]
    · simp [TokenCompressor.compress, hg, h]

/-- C8 (amended): `build_messages` returns exactly two messages, a `system`
message then a `user` message; when the LTM context is non-empty the system
message is the prompt with the context APPENDED after it (not prepended);
the rendered STM entries in the user message are the most recent
`stm_message_count` entries in insertion order, which is chronological
order whenever the stored timestamps are monotone; and the LTM block never
appears in the user (STM) message.  Stated for an assembler without a
compressor, the uncompressed path the claim describes. -/
theorem C8_build_messages (asm : ContextAssembler) (cur prompt : String)
    (outcome : Except Unit String)
    (hcomp : asm.compressor = none)
    (hts : asm.stm.memory.Pairwise (fun a b => a.timestamp ≤ b.timestamp)) :
    (asm.buildMessages cur prompt true outcome).map Message.role = ["system", "user"]
    ∧ (asm.buildMessages cur prompt true outcome).length = 2
    ∧ (∀ ctx, ctx = asm.ltm.getFormattedContext cur asm.ltmResultCount asm.ltmMinRelevance →
        ctx ≠ "" →
        ((asm.buildMessages cur prompt true outcome).map Message.content).head? =
          some (prompt ++ "\n\n" ++ ctx))
    ∧ (asm.stm.getRecent (some asm.stmMessageCount)).Pairwise
        (fun a b => a.timestamp ≤ b.timestamp)
    ∧ ((asm.buildMessages cur prompt true outcome).map Message.content).get? 1 =
        some (joinLines ((asm.stm.getRecent (some asm.stmMessageCount)).map renderEntry
          ++ currentLines cur)) := by
  refine ⟨?_, ?_, ?_, ?_, ?_⟩
  · simp [ContextAssembler.buildMessages, hcomp]
  · simp [ContextAssembler.buildMessages, hcomp]
  · intro ctx hctx hne
    simp only [ContextAssembler.buildMessages, hcomp]
    simp [ContextAssembler.fullSystemPrompt, ← hctx, hne]
  · apply List.Pairwise.sublist _ hts
    unfold ShortTermMemory.getRecent
    by_cases h0 : asm.stmMessageCount = 0
    · simp [h0]
    · simp only [if_neg h0]
      exact List.drop_sublist _ _
  · simp [ContextAssembler.buildMessages, hcomp]

/-- Witness for the amended C8 theorem at a concrete assembler (no
compressor, one chat entry in STM, empty LTM): the two-message shape. -/
theorem C8_build_messages_witness :
    ((ContextAssembler.buildMessages
        ⟨⟨15, [⟨"user", "hey", 0, some "chat", some "bob"⟩]⟩, ⟨0, fun _ _ => []⟩,
          none, 10, 3, 4/10⟩
        "what game is this" "SYS" true (.error ())).map Message.role) =
      ["system", "user"] :=
  (C8_build_messages
    ⟨⟨15, [⟨"user", "hey", 0, some "chat", some "bob"⟩]⟩, ⟨0, fun _ _ => []⟩,
      none, 10, 3, 4/10⟩
    "what game is this" "SYS" (.error ()) rfl (by simp)).1

/-- C9: compression is best-effort — if the compressor collaborator is
disabled or its call raises any error, `build_messages` still succeeds and
produces exactly the messages of the uncompressed path (same system prompt,
same user message), so a compression failure never escapes and never
changes what is generated. -/
theorem C9_compression_best_effort (asm : ContextAssembler) (c : TokenCompressor)
    (cur prompt : String) (outcome : Except Unit String)
    (hc : asm.compressor = some c)
    (hfail : c.enabled = false ∨ outcome = .error ()) :
    asm.buildMessages cur prompt true outcome = asm.buildMessages cur prompt false outcome := by
  simp [ContextAssembler.buildMessages, hc,
    compress_not_compressed c _ outcome hfail]

/-- Witness for C9: a disabled compressor on a concrete assembler produces
exactly the uncompressed messages. -/
theorem C9_compression_best_effort_witness :
    ContextAssembler.buildMessages
        ⟨⟨15, []⟩, ⟨0, fun _ _ => []⟩, some ⟨false, true⟩, 10, 3, 4/10⟩
        "hello" "SYS" true (.ok "ZIP") =
      ContextAssembler.buildMessages
        ⟨⟨15, []⟩, ⟨0, fun _ _ => []⟩, some ⟨false, true⟩, 10, 3, 4/10⟩
        "hello" "SYS" false (.ok "ZIP") :=
  C9_compression_best_effort _ ⟨false, true⟩ "hello" "SYS" (.ok "ZIP") rfl (Or.inl rfl)

/-! ## PersonaBrain decision engine
(src/pickle-ai/src/persona/brain/persona_engine.py)

`process` is embedded as a state-transition function.  Its collaborators
and environment are parameters: `now` the wall clock, `roll` the
`random.random()` draw, `inOk`/`respOk` whether the LTM embedding/store
write of stage 1 / of the response commit raises, `buildOk` whether
`build_messages` (which queries the LTM) raises, `llm` the outcome of the
LLM call, and `sim` the `difflib.SequenceMatcher(None, a, b).ratio()`
value on the two normalized texts.  The first component of the result is
`.error ()` when the call terminates by propagating an exception,
`.ok none` for the `return None` paths, and `.ok (some out)` for a
committed response. -/

/-- Model of `InputEvent` as `process` reads it: `users` is
`event.metadata.get("users", [])`. -/
structure InputEvent where
  source : String
  content : String
  users : List String
deriving DecidableEq, Repr

/-- Model of the `OutputEvent` dataclass. -/
structure OutputEvent where
  text : String
  emotion : String
  priority : Nat
  timestamp : ℚ
deriving DecidableEq, Repr

/-- The behaviour knobs `process` reads from `self.persona.behavior`
(source defaults: `vision_rate` 0.4, `speech_rate` 0.2, `cooldown` 3.0). -/
structure BehaviorConfig where
  visionRate : ℚ
  speechRate : ℚ
  cooldown : ℚ
deriving DecidableEq, Repr

/-- Model of a `PersonaBrain` instance: its behaviour config, its context
assembler and the gating state fields. -/
structure PersonaBrain where
  behavior : BehaviorConfig
  asm : ContextAssembler
  lastResponseTime : Option ℚ
  lastTriggerSource : Option String
  processingLock : Bool
  recentResponses : List String

/-- The normalization `text.lower().strip()` used by `_is_repetitive`. -/
def normText (s : String) : String :=
  stripStr (toLowerStr s)

/-- Model of `PersonaBrain._is_repetitive` (threshold 0.6 as defaulted at
the call site): empty text is never repetitive; otherwise the text is
repetitive if it equals some recent response after normalization or its
similarity ratio against one strictly exceeds the threshold. -/
def isRepetitive (recent : List String) (text : String)
    (sim : String → String → ℚ) : Bool :=
  if text = "" then false
  else recent.any (fun past =>
    normText text == normText past ||
    decide ((6 : ℚ)/10 < sim (normText text) (normText past)))

/-- Model of `PersonaBrain._should_respond`: chat always responds; vision
and speech respond when the RNG draw falls under the configured rate; any
other source is rejected. -/
def shouldRespond (st : PersonaBrain) (ev : InputEvent) (roll : ℚ) : Bool :=
  if ev.source = "chat" then true
  else if ev.source = "vision" then decide (roll < st.behavior.visionRate)
  else if ev.source = "speech" then decide (roll < st.behavior.speechRate)
  else false

/-- Stage 2 of `process`: a vision event arriving while the last committed
trigger was chat is a combo trigger. -/
def isComboTrigger (st : PersonaBrain) (ev : InputEvent) : Bool :=
  ev.source == "vision" && st.lastTriggerSource == some "chat"

/-- Stage 4 of `process`: a previous response exists and lies within the
cooldown window. -/
def cooldownActive (st : PersonaBrain) (now : ℚ) : Bool :=
  match st.lastResponseTime with
  | some t => decide (now - t < st.behavior.cooldown)
  | none => false

/-- Append to the `deque(maxlen=5)` of recent responses. -/
def pushRecent (recent : List String) (text : String) : List String :=
  let r := recent ++ [text]
  r.drop (r.length - 5)

/-- Stage 1 of `process` (`ContextAssembler.process_input`, write path that
succeeds): the event goes into STM unconditionally and bumps the LTM count
when the admission predicate accepts it. -/
def recordInput (st : PersonaBrain) (ev : InputEvent) (now : ℚ) : PersonaBrain :=
  let stm1 := (st.asm.stm.add "user" ev.content now (some ev.source) ev.users.head?).2
  let asm1 := { st.asm with stm := stm1 }
  if should_save_to_ltm ev.content then
    { st with asm := { asm1 with ltm := ⟨st.asm.ltm.count + 1, st.asm.ltm.query⟩ } }
  else
    { st with asm := asm1 }

/-- Stages 5-8 of `process`: concurrency gate, lock acquisition, the
`try`-block (message assembly, LLM call, dedup check, commit) and the
`finally` release of the lock on every exit, exceptional or not. -/
def genPhase (st1 : PersonaBrain) (ev : InputEvent) (now : ℚ) (buildOk : Bool)
    (llm : Except Unit String) (sim : String → String → ℚ) (respOk : Bool) :
    Except Unit (Option OutputEvent) × PersonaBrain :=
  if st1.processingLock then (.ok none, st1)
  else if !buildOk then (.error (), { st1 with processingLock := false })
  else
    match llm with
    | .error _ => (.ok none, { st1 with processingLock := false })
    | .ok text =>
      if isRepetitive st1.recentResponses text sim then
        (.ok none, { st1 with processingLock := false })
      else
        let stm2 := (st1.asm.stm.add "assistant" text now none none).2
        if !respOk then
          (.error (),
           { st1 with
             asm := { st1.asm with stm := stm2 }
             processingLock := false })
        else
          (.ok (some ⟨text, "neutral", 1, now⟩),
           { st1 with
             asm := { { st1.asm with stm := stm2 } with
               ltm := ⟨st1.asm.ltm.count + 1, st1.asm.ltm.query⟩ }
             lastResponseTime := some now
             lastTriggerSource := some ev.source
             recentResponses := pushRecent st1.recentResponses text
             processingLock := false })

/-- Model of `PersonaBrain.process`: record the event (stage 1, where an
LTM write failure propagates with the STM already updated), then combo
check, admission probability, cooldown, and the generation phase. -/
def PersonaBrain.process (st : PersonaBrain) (ev : InputEvent) (now roll : ℚ)
    (inOk buildOk : Bool) (llm : Except Unit String)
    (sim : String → String → ℚ) (respOk : Bool) :
    Except Unit (Option OutputEvent) × PersonaBrain :=
  if should_save_to_ltm ev.content && !inOk then
    (.error (), { st with asm := { st.asm with stm :=
        (st.asm.stm.add "user" ev.content now (some ev.source) ev.users.head?).2 } })
  else
    let st1 := recordInput st ev now
    if !isComboTrigger st ev && !shouldRespond st ev roll then (.ok none, st1)
    else if !isComboTrigger st ev && cooldownActive st1 now then (.ok none, st1)
    else genPhase st1 ev now buildOk llm sim respOk

@[simp] theorem recordInput_behavior (st : PersonaBrain) (ev : InputEvent) (now : ℚ) :
    (recordInput st ev now).behavior = st.behavior := by
  unfold recordInput
  by_cases h : should_save_to_ltm ev.content <;> simp [h]

@[simp] theorem recordInput_lastResponseTime (st : PersonaBrain) (ev : InputEvent) (now : ℚ) :
    (recordInput st ev now).lastResponseTime = st.lastResponseTime := by
  unfold recordInput
  by_cases h : should_save_to_ltm ev.content <;> simp [h]

@[simp] theorem recordInput_lastTriggerSource (st : PersonaBrain) (ev : InputEvent) (now : ℚ) :
    (recordInput st ev now).lastTriggerSource = st.lastTriggerSource := by
  unfold recordInput
  by_cases h : should_save_to_ltm ev.content <;> simp [h]

@[simp] theorem recordInput_processingLock (st : PersonaBrain) (ev : InputEvent) (now : ℚ) :
    (recordInput st ev now).processingLock = st.processingLock := by
  unfold recordInput
  by_cases h : should_save_to_ltm ev.content <;> simp [h]

@[simp] theorem recordInput_recentResponses (st : PersonaBrain) (ev : InputEvent) (now : ℚ) :
    (recordInput st ev now).recentResponses = st.recentResponses := by
  unfold recordInput
  by_cases h : should_save_to_ltm ev.content <;> simp [h]

/-- With a healthy stage-1 memory write, `process` is the gating cascade
over the post-record state. -/
theorem process_eq_of_inOk (st : PersonaBrain) (ev : InputEvent) (now roll : ℚ)
    (buildOk : Bool) (llm : Except Unit String) (sim : String → String → ℚ)
    (respOk : Bool) :
    st.process ev now roll true buildOk llm sim respOk =
      (if !isComboTrigger st ev && !shouldRespond st ev roll then
        (.ok none, recordInput st ev now)
      else if !isComboTrigger st ev && cooldownActive (recordInput st ev now) now then
        (.ok none, recordInput st ev now)
      else genPhase (recordInput st ev now) ev now buildOk llm sim respOk) := by
  unfold PersonaBrain.process
  simp

theorem genPhase_llm_error (st1 : PersonaBrain) (ev : InputEvent) (now : ℚ)
    (sim : String → String → ℚ) (respOk : Bool) :
    genPhase st1 ev now true (.error ()) sim respOk =
      (if st1.processingLock then (.ok none, st1)
       else (.ok none, { st1 with processingLock := false })) := by
  unfold genPhase
  by_cases h : st1.processingLock <;> simp [h]

theorem genPhase_dedup (st1 : PersonaBrain) (ev : InputEvent) (now : ℚ)
    (text : String) (sim : String → String → ℚ) (respOk : Bool)
    (h : isRepetitive st1.recentResponses text sim = true) :
    genPhase st1 ev now true (.ok text) sim respOk =
      (if st1.processingLock then (.ok none, st1)
       else (.ok none, { st1 with processingLock := false })) := by
  unfold genPhase
  by_cases hl : st1.processingLock <;> simp [hl, h]

/-- The observable outcome of a `process` call: the committed text, if any. -/
def outcomeText : Except Unit (Option OutputEvent) → Option String
  | .ok (some o) => some o.text
  | _ => none

/-- A brain about to process, whose recent-response ring holds the empty
string (committed earlier by an empty LLM response, which the dedup check
never rejects). -/
def demoBrain : PersonaBrain :=
  ⟨⟨2/5, 1/5, 3⟩, ⟨⟨15, []⟩, ⟨0, fun _ _ => []⟩, none, 10, 3, 4/10⟩,
    none, none, false, [""]⟩

/-- Counterexample to C4 as stated: the LLM returns the empty string, which
is an exact (case-insensitive) match of a ring entry, yet `process` commits
it — `_is_repetitive` short-circuits on falsy text before any comparison —
returning a non-null `OutputEvent` and updating the ring, the last trigger
source and the last response time. -/
theorem C4_counterexample :
    outcomeText (demoBrain.process ⟨"chat", "x", []⟩ 0 0 true true (.ok "")
        (fun _ _ => 1) true).1 = some ""
    ∧ (demoBrain.process ⟨"chat", "x", []⟩ 0 0 true true (.ok "")
        (fun _ _ => 1) true).2.recentResponses = ["", ""]
    ∧ (demoBrain.process ⟨"chat", "x", []⟩ 0 0 true true (.ok "")
        (fun _ _ => 1) true).2.lastTriggerSource = some "chat"
    ∧ (demoBrain.process ⟨"chat", "x", []⟩ 0 0 true true (.ok "")
        (fun _ _ => 1) true).2.lastResponseTime.isSome = true := by
  refine ⟨?_, ?_, ?_, ?_⟩ <;> decide

/-- C4 (amended): whenever the generated text is NONEMPTY and is a
near-duplicate of one of the retained recent responses — equal after
lower-casing and stripping, or with similarity ratio strictly above the
0.6 threshold — `process` returns null and neither `last_response_time`
nor `last_trigger_source` nor the recent-response ring is updated.  (The
empty-text counterexample above forces the nonemptiness proviso; the
source also normalizes with `strip()`, which only widens the rejected
set.) -/
theorem C4_dedup_rejects (st : PersonaBrain) (ev : InputEvent) (now roll : ℚ)
    (text : String) (sim : String → String → ℚ) (respOk : Bool)
    (hne : text ≠ "")
    (hdup : ∃ past ∈ st.recentResponses,
      normText text = normText past ∨ (6:ℚ)/10 < sim (normText text) (normText past)) :
    (st.process ev now roll true true (.ok text) sim respOk).1 = .ok none
    ∧ (st.process ev now roll true true (.ok text) sim respOk).2.lastResponseTime =
        st.lastResponseTime
    ∧ (st.process ev now roll true true (.ok text) sim respOk).2.lastTriggerSource =
        st.lastTriggerSource
    ∧ (st.process ev now roll true true (.ok text) sim respOk).2.recentResponses =
        st.recentResponses := by
  have hrep : isRepetitive (recordInput st ev now).recentResponses text sim = true := by
    rw [recordInput_recentResponses]
    rcases hdup with ⟨past, hmem, hcond⟩
    unfold isRepetitive
    rw [if_neg hne]
    apply List.any_eq_true.2
    refine ⟨past, hmem, ?_⟩
    rcases hcond with h | h
    · simp [h]
    · simp [h]
  rw [process_eq_of_inOk]
  by_cases h3 : (!isComboTrigger st ev && !shouldRespond st ev roll) = true
  · simp [h3]
  · rw [if_neg (by simp [h3])]
    by_cases h4 : (!isComboTrigger st ev && cooldownActive (recordInput st ev now) now) = true
    · simp [h4]
    · rw [if_neg (by simp [h4]), genPhase_dedup _ _ _ _ _ _ hrep]
      by_cases hl : st.processingLock <;> simp [hl]

/-- Witness for the amended C4 theorem: a brain that recently said "Hello"
rejects the regenerated "HELLO " (case-insensitive match after stripping)
with a null result and unchanged gating state. -/
theorem C4_dedup_rejects_witness :
    (PersonaBrain.process
        ⟨⟨2/5, 1/5, 3⟩, ⟨⟨15, []⟩, ⟨0, fun _ _ => []⟩, none, 10, 3, 4/10⟩,
          none, none, false, ["Hello"]⟩
        ⟨"chat", "x", []⟩ 0 0 true true (.ok "HELLO ") (fun _ _ => 0) true).1 =
      .ok none :=
  (C4_dedup_rejects
    ⟨⟨2/5, 1/5, 3⟩, ⟨⟨15, []⟩, ⟨0, fun _ _ => []⟩, none, 10, 3, 4/10⟩,
      none, none, false, ["Hello"]⟩
    ⟨"chat", "x", []⟩ 0 0 "HELLO " (fun _ _ => 0) true (by decide)
    ⟨"Hello", by decide, Or.inl (by decide)⟩).1

/-- C5: cooldown enforcement — a non-combo call arriving strictly less than
`cooldown_seconds` after the recorded last response time returns null,
regardless of the RNG draw, the LLM outcome or anything else; the brain
cannot emit a second non-combo response inside the window. -/
theorem C5_cooldown (st : PersonaBrain) (ev : InputEvent) (now roll : ℚ)
    (buildOk : Bool) (llm : Except Unit String) (sim : String → String → ℚ)
    (respOk : Bool) (t : ℚ)
    (hcombo : isComboTrigger st ev = false)
    (ht : st.lastResponseTime = some t)
    (hcd : now - t < st.behavior.cooldown) :
    (st.process ev now roll true buildOk llm sim respOk).1 = .ok none := by
  rw [process_eq_of_inOk]
  by_cases h3 : shouldRespond st ev roll
  · have hcd' : cooldownActive (recordInput st ev now) now = true := by
      unfold cooldownActive
      rw [recordInput_lastResponseTime, ht]
      simp [recordInput_behavior, hcd]
    simp [hcombo, h3, hcd']
  · simp [hcombo, h3]

/-- Witness for C5: a brain that answered at time 0 with cooldown 3 rejects
a chat event at time 1. -/
theorem C5_cooldown_witness :
    (PersonaBrain.process
        ⟨⟨2/5, 1/5, 3⟩, ⟨⟨15, []⟩, ⟨0, fun _ _ => []⟩, none, 10, 3, 4/10⟩,
          some 0, some "chat", false, []⟩
        ⟨"chat", "hey", []⟩ 1 0 true true (.ok "hi") (fun _ _ => 0) true).1 =
      .ok none :=
  C5_cooldown
    ⟨⟨2/5, 1/5, 3⟩, ⟨⟨15, []⟩, ⟨0, fun _ _ => []⟩, none, 10, 3, 4/10⟩,
      some 0, some "chat", false, []⟩
    ⟨"chat", "hey", []⟩ 1 0 true (.ok "hi") (fun _ _ => 0) true 0
    (by decide) rfl (by norm_num)

/-- C6: the combo trigger fires exactly when the event source is `vision`
and the last committed trigger source is `chat` (clause 1); a combo call
skips the admission and cooldown stages entirely, proceeding straight to
the generation phase whatever the RNG draw or elapsed time (clause 2), so
its result does not depend on the draw (clause 3); the concurrency gate
still applies to a combo call (clause 4); and a non-combo call is still
subject to admission (clause 5). -/
theorem C6_combo_trigger (st : PersonaBrain) (ev : InputEvent) (now roll : ℚ)
    (buildOk : Bool) (llm : Except Unit String) (sim : String → String → ℚ)
    (respOk : Bool) :
    (isComboTrigger st ev = true ↔
      (ev.source = "vision" ∧ st.lastTriggerSource = some "chat"))
    ∧ (isComboTrigger st ev = true →
        st.process ev now roll true buildOk llm sim respOk =
          genPhase (recordInput st ev now) ev now buildOk llm sim respOk)
    ∧ (isComboTrigger st ev = true → ∀ roll' : ℚ,
        st.process ev now roll true buildOk llm sim respOk =
          st.process ev now roll' true buildOk llm sim respOk)
    ∧ (isComboTrigger st ev = true → st.processingLock = true →
        (st.process ev now roll true buildOk llm sim respOk).1 = .ok none)
    ∧ (isComboTrigger st ev = false → shouldRespond st ev roll = false →
        (st.process ev now roll true buildOk llm sim respOk).1 = .ok none) := by
  have hcombo_eq : ∀ h : isComboTrigger st ev = true,
      st.process ev now roll true buildOk llm sim respOk =
        genPhase (recordInput st ev now) ev now buildOk llm sim respOk := by
    intro h
    rw [process_eq_of_inOk]
    simp [h]
  refine ⟨?_, hcombo_eq, ?_, ?_, ?_⟩
  · unfold isComboTrigger
    simp
  · intro h roll'
    rw [hcombo_eq h, process_eq_of_inOk]
    simp [h]
  · intro h hl
    rw [hcombo_eq h]
    unfold genPhase
    simp [recordInput_processingLock, hl]
  · intro h hsr
    rw [process_eq_of_inOk]
    simp [h, hsr]

/-- Witness for C6: a vision event right after a chat-triggered commit, on
a busy brain within the cooldown window and with an RNG draw above the
vision rate, still takes the combo path and is stopped only by the
concurrency gate. -/
theorem C6_combo_trigger_witness :
    (PersonaBrain.process
        ⟨⟨2/5, 1/5, 3⟩, ⟨⟨15, []⟩, ⟨0, fun _ _ => []⟩, none, 10, 3, 4/10⟩,
          some 0, some "chat", true, []⟩
        ⟨"vision", "a cat appears", []⟩ 1 1 true true (.ok "look!")
        (fun _ _ => 0) true).1 = .ok none :=
  ((C6_combo_trigger
    ⟨⟨2/5, 1/5, 3⟩, ⟨⟨15, []⟩, ⟨0, fun _ _ => []⟩, none, 10, 3, 4/10⟩,
      some 0, some "chat", true, []⟩
    ⟨"vision", "a cat appears", []⟩ 1 1 true (.ok "look!")
    (fun _ _ => 0) true).2.2.2.1) (by decide) rfl

/-- C7: when the LLM collaborator call raises, `process` swallows the
failure and returns null; the busy flag ends the call exactly as it began
(released when this call acquired it), and `last_response_time`,
`last_trigger_source` and the recent-response ring are all unchanged, so
the next event retries from a clean state.  (The stage-1 memory write has
already happened by design — memory accumulation is unconditional.) -/
theorem C7_llm_failure_recovered (st : PersonaBrain) (ev : InputEvent)
    (now roll : ℚ) (sim : String → String → ℚ) (respOk : Bool) :
    (st.process ev now roll true true (.error ()) sim respOk).1 = .ok none
    ∧ (st.process ev now roll true true (.error ()) sim respOk).2.lastResponseTime =
        st.lastResponseTime
    ∧ (st.process ev now roll true true (.error ()) sim respOk).2.lastTriggerSource =
        st.lastTriggerSource
    ∧ (st.process ev now roll true true (.error ()) sim respOk).2.recentResponses =
        st.recentResponses
    ∧ (st.process ev now roll true true (.error ()) sim respOk).2.processingLock =
        st.processingLock := by
  rw [process_eq_of_inOk]
  by_cases h3 : (!isComboTrigger st ev && !shouldRespond st ev roll) = true
  · simp [h3]
  · rw [if_neg (by simp [h3])]
    by_cases h4 : (!isComboTrigger st ev && cooldownActive (recordInput st ev now) now) = true
    · simp [h4]
    · rw [if_neg (by simp [h4]), genPhase_llm_error]
      by_cases hl : st.processingLock <;> simp [hl]

/-- C10: the busy flag is restored on every exit path of `process` — early
rejection, dedup rejection, LLM failure, commit, and the paths where a
memory/embedding exception propagates out (the `finally` block resets the
flag before the exception escapes).  Every call leaves the flag exactly as
it found it (clause 1), so a call entered with the flag free — the only
state a quiescent brain can be in — terminates with it free again
(clause 2): the brain can never remain permanently busy after a failed
call. -/
theorem C10_lock_restored (st : PersonaBrain) (ev : InputEvent) (now roll : ℚ)
    (inOk buildOk : Bool) (llm : Except Unit String)
    (sim : String → String → ℚ) (respOk : Bool) :
    (st.process ev now roll inOk buildOk llm sim respOk).2.processingLock =
      st.processingLock
    ∧ (st.processingLock = false →
        (st.process ev now roll inOk buildOk llm sim respOk).2.processingLock = false) := by
  have h1 : (st.process ev now roll inOk buildOk llm sim respOk).2.processingLock =
      st.processingLock := by
    unfold PersonaBrain.process
    by_cases h0 : (should_save_to_ltm ev.content && !inOk) = true
    · simp [h0]
    · rw [if_neg (by simp [h0])]
      by_cases h3 : (!isComboTrigger st ev && !shouldRespond st ev roll) = true
      · simp [h3]
      · rw [if_neg (by simp [h3])]
        by_cases h4 : (!isComboTrigger st ev && cooldownActive (recordInput st ev now) now) = true
        · simp [h4]
        · rw [if_neg (by simp [h4])]
          unfold genPhase
          by_cases hl : st.processingLock
          · simp [hl]
          · by_cases hb : buildOk
            · rcases llm with e | text
              · simp [hl, hb]
              · by_cases hr : isRepetitive st.recentResponses text sim
                · simp [hl, hb, hr]
                · by_cases hrk : respOk <;> simp [hl, hb, hr, hrk]
            · simp [hl, hb]
  exact ⟨h1, fun h => h1.trans h⟩

/-- Witness for C10: a call whose stage-1 LTM write raises (content passes
the admission predicate, collaborator broken) still terminates with the
busy flag free. -/
theorem C10_lock_restored_witness :
    (PersonaBrain.process
        ⟨⟨2/5, 1/5, 3⟩, ⟨⟨15, []⟩, ⟨0, fun _ _ => []⟩, none, 10, 3, 4/10⟩,
          none, none, false, []⟩
        ⟨"chat", "hello world this is five words", []⟩ 0 0 false true
        (.ok "hi") (fun _ _ => 0) true).2.processingLock = false :=
  (C10_lock_restored
    ⟨⟨2/5, 1/5, 3⟩, ⟨⟨15, []⟩, ⟨0, fun _ _ => []⟩, none, 10, 3, 4/10⟩,
      none, none, false, []⟩
    ⟨"chat", "hello world this is five words", []⟩ 0 0 false true
    (.ok "hi") (fun _ _ => 0) true).2 rfl

end PersonaCore
